import Mathlib

/-
  A shallow embedding of the shadow-projection / effective-area engine of the
  Satellite-Optical-Brightness repository, together with its observer-frame
  transform, and theorems checking the repository specification against it.

  Modelling conventions:
  * Python floats are modelled as real numbers.
  * `shapely` polygons are modelled as subsets of ℝ × ℝ.  Every polygon that
    the engine builds is convex (axis-aligned rectangles and parallelograms),
    and an intersection of convex polygons is convex, so the exterior-ring
    vertex list the code extracts determines exactly the region itself; the
    model therefore carries the region where the code carries vertices.
  * `shapely` area is two-dimensional Lebesgue measure.
  * Two files of the repository define a `ShadowCalculator` class; they differ
    in the `get_quadrant` boundary at 270° and in the guards of
    `calculate_shadow`.  Namespace `EAC` embeds `Effective_Area_Calculation.py`
    and namespace `ABm` embeds `analysis/ABmag_SolarPhaseAngle_new.py`.
-/

noncomputable section

open MeasureTheory Classical

/-- Python's float modulo `x % y` for `y > 0` (result has the divisor's sign):
`x - y * ⌊x / y⌋`. -/
def modReal (x y : ℝ) : ℝ := x - y * ⌊x / y⌋

/-- Source: `math.radians`. -/
def radians (d : ℝ) : ℝ := d * (Real.pi / 180)

/-- Source: `math.degrees`. -/
def degrees (r : ℝ) : ℝ := r * (180 / Real.pi)

/-- Source: `math.isclose a b abs_tol=1e-9`, which keeps the default relative
tolerance `rel_tol = 1e-9`, hence holds iff
`|a - b| ≤ max (1e-9 * max |a| |b|) 1e-9`. -/
def isclose (a b : ℝ) : Prop := |a - b| ≤ max (1e-9 * max |a| |b|) 1e-9

/-- Source: `numpy.arctan2 y x` (range `(-π, π]`, with `arctan2 0 0 = 0`),
which is the argument of the complex number with real part `x` and imaginary
part `y`. -/
def atan2 (y x : ℝ) : ℝ := Complex.arg ⟨x, y⟩

/-- Source: `shapely.Polygon` on corners `(0,0), (a,0), (a,b), (0,b)`:
the axis-aligned rectangle `[0,a] × [0,b]`. -/
def rectSet (a b : ℝ) : Set (ℝ × ℝ) := Set.Icc 0 a ×ˢ Set.Icc 0 b

/-- Source: `shapely.Polygon` on corners `(0,0), (d,0), (d-x,y), (-x,y)`: the
(possibly degenerate) parallelogram spanned by `(d,0)` and `(-x,y)`. -/
def paraSet (d x y : ℝ) : Set (ℝ × ℝ) :=
  (fun st : ℝ × ℝ => (st.1 * d - st.2 * x, st.2 * y)) '' (Set.Icc 0 1 ×ˢ Set.Icc 0 1)

/-- Source: the `.area` attribute of a `shapely` region: two-dimensional
Lebesgue measure of the modelled region. -/
def area (s : Set (ℝ × ℝ)) : ℝ := (volume s).toReal

/-- Dimensions held by a `ShadowCalculator` instance (`self.L`, `self.D`,
`self.H`). -/
structure ShadowCalculator where
  L : ℝ
  D : ℝ
  H : ℝ

/-- Source: `self.A_SA = self.D * self.H` (solar array initial area). -/
def ShadowCalculator.A_SA (c : ShadowCalculator) : ℝ := c.D * c.H

/-- Source: `self.A_chassis = self.L * self.D` (chassis initial area). -/
def ShadowCalculator.A_chassis (c : ShadowCalculator) : ℝ := c.L * c.D

/-- Source: the default configuration `CONFIG = {'L': 1.3, 'D': 2.8, 'H': 8.1}`. -/
def defaultCalc : ShadowCalculator := ⟨1.3, 2.8, 8.1⟩

namespace EAC

/-- Source: `ShadowCalculator.get_quadrant` in `Effective_Area_Calculation.py`;
here Q3 is the closed interval `180 <= phi <= 270`. -/
def get_quadrant (phi_deg : ℝ) : ℕ :=
  let phi := modReal phi_deg 360
  if 0 ≤ phi ∧ phi < 90 then 1
  else if 90 ≤ phi ∧ phi < 180 then 2
  else if 180 ≤ phi ∧ phi ≤ 270 then 3
  else 4

/-- Source: `cot_phi = 1 / math.tan(phi) if math.tan(phi) != 0 else
float('inf')` in `Effective_Area_Calculation.py`.  `float('inf')` has no
counterpart in ℝ; on that branch (tan = 0) Lean's total division `1 / 0 = 0`
stands in as an arbitrary value, and no theorem below depends on the value
taken there. -/
def cot_phi (phi_deg : ℝ) : ℝ := 1 / Real.tan (radians phi_deg)

/-- Source: `x_offset = self.L * cot_phi * math.sin(theta)` (this file applies
no clamping to the offsets). -/
def x_offset (c : ShadowCalculator) (phi_deg theta_deg : ℝ) : ℝ :=
  c.L * cot_phi phi_deg * Real.sin (radians theta_deg)

/-- Source: `y_offset = self.L * cot_phi * math.cos(theta)` (unclamped). -/
def y_offset (c : ShadowCalculator) (phi_deg theta_deg : ℝ) : ℝ :=
  c.L * cot_phi phi_deg * Real.cos (radians theta_deg)

/-- Source: `ShadowCalculator.calculate_shadow` in
`Effective_Area_Calculation.py`.  The returned vertex list is modelled by the
intersection region itself; on the empty intersection the code returns an
empty vertex list and area `0`, matched here by the empty region of measure
`0`. -/
def calculate_shadow (c : ShadowCalculator) (phi_deg theta_deg : ℝ) :
    Set (ℝ × ℝ) × ℝ :=
  let shadow_poly :=
    if isclose (modReal phi_deg 180) 90 then rectSet c.D c.L
    else paraSet c.D (x_offset c phi_deg theta_deg) (y_offset c phi_deg theta_deg)
  let shadow_intersection := shadow_poly ∩ rectSet c.D c.H
  (shadow_intersection, area shadow_intersection)

/-- Source: `ShadowCalculator.calculate_combined_non_shadow`.  The
`hasattr(non_shadow, 'area')` fallback to `D*H` is dead in the model, since
every modelled region has an area. -/
def calculate_combined_non_shadow (c : ShadowCalculator)
    (phi_i theta_i phi_o theta_o : ℝ) : ℝ × Set (ℝ × ℝ) :=
  let v_i := (calculate_shadow c phi_i theta_i).1
  let v_o := (calculate_shadow c phi_o theta_o).1
  let rect := rectSet c.D c.H
  let combined := v_i ∪ v_o
  let non_shadow := rect \ combined
  (area non_shadow, combined)

/-- Source: `ShadowCalculator.calculate_special_case` in
`Effective_Area_Calculation.py`. -/
def calculate_special_case (c : ShadowCalculator)
    (phi_i theta_i phi_o theta_o : ℝ) : ℝ :=
  let quad_i := get_quadrant phi_i
  let phi_i_adj := if quad_i = 1 then 0 else phi_i - 270
  let phi_o_adj := phi_o - 270
  (calculate_combined_non_shadow c phi_i_adj theta_i phi_o_adj theta_o).1

/-- Source: `ShadowCalculator.calculate_effective_area` in
`Effective_Area_Calculation.py` (angle-pair input).  In the code `A_eff_SA`
and `A_eff_chassis` are initialized to `0` and assigned per branch; quadrant
combinations assigned by no branch keep `(0, 0)`. -/
def calculate_effective_area (c : ShadowCalculator)
    (phi_i theta_i phi_o theta_o : ℝ) : ℝ × ℝ :=
  let quad_i := get_quadrant phi_i
  let quad_o := get_quadrant phi_o
  if quad_i = 1 then
    if quad_o = 3 then (0, 0)
    else if quad_o = 4 then (calculate_special_case c phi_i theta_i phi_o theta_o, 0)
    else (0, 0)
  else if quad_i = 2 then
    if quad_o = 3 then (c.A_SA, 0)
    else if quad_o = 4 then (0, 0)
    else (0, 0)
  else if quad_i = 3 then
    if quad_o = 3 then (c.A_SA, c.A_chassis)
    else if quad_o = 4 then (0, c.A_chassis)
    else (0, 0)
  else if quad_i = 4 then
    if quad_o = 3 then (0, c.A_chassis)
    else if quad_o = 4 then (calculate_special_case c phi_i theta_i phi_o theta_o, c.A_chassis)
    else (0, 0)
  else (0, 0)

end EAC

namespace ABm

/-- Source: `ShadowCalculator.cartesian_to_spherical` in
`analysis/ABmag_SolarPhaseAngle_new.py`.  Notes: the zero-norm guard returns
the sentinel `(0, 0)`; `sin_theta` is clamped into `[-1, 1]` before `asin`.
At the unguarded pole `z' = -1` (where `phi_deg = 270`) the code divides `y'`
by the float `cos(phi_rad) ≈ 6.1e-17` with `y' = 0`, producing `0`; real
division `0 / 0 = 0` in Lean gives the same value. -/
def cartesian_to_spherical (x y z : ℝ) : ℝ × ℝ :=
  let norm := Real.sqrt (x ^ 2 + y ^ 2 + z ^ 2)
  if norm = 0 then (0, 0)
  else
    let x' := x / norm
    let y' := y / norm
    let z' := z / norm
    let phi_rad := Real.arcsin z'
    let phi_deg := if x' > 0 then modReal (degrees phi_rad) 360 else 180 - degrees phi_rad
    let theta_deg :=
      if isclose |phi_deg| 90 then 0
      else degrees (Real.arcsin (max (-1) (min 1 (y' / Real.cos phi_rad))))
    (modReal phi_deg 360, theta_deg)

/-- Source: `ShadowCalculator.get_quadrant` in
`analysis/ABmag_SolarPhaseAngle_new.py`; here Q3 is the half-open interval
`180 <= phi < 270`, so `phi = 270` falls into Q4. -/
def get_quadrant (phi_deg : ℝ) : ℕ :=
  let phi := modReal phi_deg 360
  if 0 ≤ phi ∧ phi < 90 then 1
  else if 90 ≤ phi ∧ phi < 180 then 2
  else if 180 ≤ phi ∧ phi < 270 then 3
  else 4

/-- Source: the guarded denominator `max(1e-10, math.tan(phi))` in
`analysis/ABmag_SolarPhaseAngle_new.py` (note: a one-sided floor at `+1e-10`,
which also replaces every negative tangent by `1e-10`). -/
def tanClamped (phi_deg : ℝ) : ℝ := max 1e-10 (Real.tan (radians phi_deg))

/-- Source: `cot_phi = 1 / max(1e-10, math.tan(phi))`. -/
def cot_phi (phi_deg : ℝ) : ℝ := 1 / tanClamped phi_deg

/-- Source: `x_offset = self.L * cot_phi * math.sin(theta)` followed by
`x_offset = max(-1e6, min(1e6, x_offset))`. -/
def x_offset (c : ShadowCalculator) (phi_deg theta_deg : ℝ) : ℝ :=
  max (-1e6) (min 1e6 (c.L * cot_phi phi_deg * Real.sin (radians theta_deg)))

/-- Source: `y_offset = self.L * cot_phi * math.cos(theta)` followed by
`y_offset = max(-1e6, min(1e6, y_offset))`. -/
def y_offset (c : ShadowCalculator) (phi_deg theta_deg : ℝ) : ℝ :=
  max (-1e6) (min 1e6 (c.L * cot_phi phi_deg * Real.cos (radians theta_deg)))

/-- Source: `ShadowCalculator.calculate_shadow` in
`analysis/ABmag_SolarPhaseAngle_new.py` (the variant with the clamped
cotangent and clamped offsets); region/vertex modelling as in `EAC`. -/
def calculate_shadow (c : ShadowCalculator) (phi_deg theta_deg : ℝ) :
    Set (ℝ × ℝ) × ℝ :=
  let shadow_poly :=
    if isclose (modReal phi_deg 180) 90 then rectSet c.D c.L
    else paraSet c.D (x_offset c phi_deg theta_deg) (y_offset c phi_deg theta_deg)
  let shadow_intersection := shadow_poly ∩ rectSet c.D c.H
  (shadow_intersection, area shadow_intersection)

/-- Source: `ShadowCalculator.calculate_combined_non_shadow` in
`analysis/ABmag_SolarPhaseAngle_new.py`. -/
def calculate_combined_non_shadow (c : ShadowCalculator)
    (phi_i theta_i phi_o theta_o : ℝ) : ℝ × Set (ℝ × ℝ) :=
  let v_i := (calculate_shadow c phi_i theta_i).1
  let v_o := (calculate_shadow c phi_o theta_o).1
  let rect := rectSet c.D c.H
  let combined := v_i ∪ v_o
  let non_shadow := rect \ combined
  (area non_shadow, combined)

/-- Source: `ShadowCalculator.calculate_special_case` in
`analysis/ABmag_SolarPhaseAngle_new.py`. -/
def calculate_special_case (c : ShadowCalculator)
    (phi_i theta_i phi_o theta_o : ℝ) : ℝ :=
  let quad_i := get_quadrant phi_i
  let phi_i_adj := if quad_i = 1 then 0 else phi_i - 270
  let phi_o_adj := phi_o - 270
  (calculate_combined_non_shadow c phi_i_adj theta_i phi_o_adj theta_o).1

/-- Source: `ShadowCalculator.calculate_effective_area` in
`analysis/ABmag_SolarPhaseAngle_new.py` (Cartesian input): converts both
vectors with `cartesian_to_spherical`, then runs the same case ladder as the
angle-input variant, with this file's `get_quadrant` and
`calculate_special_case`. -/
def calculate_effective_area (c : ShadowCalculator)
    (xi yi zi xo yo zo : ℝ) : ℝ × ℝ :=
  let pi_i := cartesian_to_spherical xi yi zi
  let pi_o := cartesian_to_spherical xo yo zo
  let phi_i := pi_i.1
  let theta_i := pi_i.2
  let phi_o := pi_o.1
  let theta_o := pi_o.2
  let quad_i := get_quadrant phi_i
  let quad_o := get_quadrant phi_o
  if quad_i = 1 then
    if quad_o = 3 then (0, 0)
    else if quad_o = 4 then (calculate_special_case c phi_i theta_i phi_o theta_o, 0)
    else (0, 0)
  else if quad_i = 2 then
    if quad_o = 3 then (c.A_SA, 0)
    else if quad_o = 4 then (0, 0)
    else (0, 0)
  else if quad_i = 3 then
    if quad_o = 3 then (c.A_SA, c.A_chassis)
    else if quad_o = 4 then (0, c.A_chassis)
    else (0, 0)
  else if quad_i = 4 then
    if quad_o = 3 then (0, c.A_chassis)
    else if quad_o = 4 then (calculate_special_case c phi_i theta_i phi_o theta_o, c.A_chassis)
    else (0, 0)
  else (0, 0)

end ABm

/-- A 3-vector of reals, the model of a `numpy` array of length 3. -/
abbrev Vec3 := ℝ × ℝ × ℝ

/-- Source: `np.dot` on 3-vectors. -/
def dot3 (a b : Vec3) : ℝ := a.1 * b.1 + a.2.1 * b.2.1 + a.2.2 * b.2.2

/-- Source: `np.cross` on 3-vectors. -/
def cross3 (a b : Vec3) : Vec3 :=
  (a.2.1 * b.2.2 - a.2.2 * b.2.1, a.2.2 * b.1 - a.1 * b.2.2, a.1 * b.2.1 - a.2.1 * b.1)

/-- Source: `np.linalg.norm` on 3-vectors. -/
def norm3 (a : Vec3) : ℝ := Real.sqrt (dot3 a a)

/-- Componentwise division of a vector by a scalar (`v / r` in `numpy`). -/
def div3 (a : Vec3) (r : ℝ) : Vec3 := (a.1 / r, a.2.1 / r, a.2.2 / r)

/-- Scalar multiple of a 3-vector. -/
def smul3 (r : ℝ) (a : Vec3) : Vec3 := (r * a.1, r * a.2.1, r * a.2.2)

/-- Negation of a 3-vector (`-v` in `numpy`). -/
def neg3 (a : Vec3) : Vec3 := (-a.1, -a.2.1, -a.2.2)

/-- Componentwise difference of 3-vectors. -/
def sub3 (a b : Vec3) : Vec3 := (a.1 - b.1, a.2.1 - b.2.1, a.2.2 - b.2.2)

/-- Componentwise sum of 3-vectors. -/
def add3 (a b : Vec3) : Vec3 := (a.1 + b.1, a.2.1 + b.2.1, a.2.2 + b.2.2)

/-- Source: `T = np.vstack([x_s, y_s, z_s]).T` in
`altitude_azimuth_filter.py`: the matrix whose rows are the three given
vectors, transposed, i.e. the matrix with columns `x_s`, `y_s`, `z_s`. -/
def frameMatrix (xs ys zs : Vec3) : Matrix (Fin 3) (Fin 3) ℝ :=
  (Matrix.of ![![xs.1, xs.2.1, xs.2.2], ![ys.1, ys.2.1, ys.2.2], ![zs.1, zs.2.1, zs.2.2]]).transpose

/-- Source: `M @ v` for a 3×3 matrix and a length-3 `numpy` array, read back
as a `Vec3`. -/
def mulVec3 (M : Matrix (Fin 3) (Fin 3) ℝ) (v : Vec3) : Vec3 :=
  (M.mulVec ![v.1, v.2.1, v.2.2] 0, M.mulVec ![v.1, v.2.1, v.2.2] 1,
    M.mulVec ![v.1, v.2.1, v.2.2] 2)

/-- Source: the frame construction inside `satellite_to_observer_frame` in
`altitude_azimuth_filter.py`: from the normalized inputs, `z_s = -o`,
`y_s = cross(z_s, i)` normalized (with the documented fallbacks when the
cross product is degenerate), `x_s = cross(y_s, z_s)` normalized.  Returned
as `(x_s, y_s, z_s)`. -/
def observerFrameBasis (i_xyz o_xyz : Vec3) : Vec3 × Vec3 × Vec3 :=
  let i' := div3 i_xyz (norm3 i_xyz)
  let o' := div3 o_xyz (norm3 o_xyz)
  let z_s := neg3 o'
  let cross_product := cross3 z_s i'
  let cross_norm := norm3 cross_product
  let y_s :=
    if cross_norm < 1e-10 then
      let y0 : Vec3 := (0, 1, 0)
      let y1 := sub3 y0 (smul3 (dot3 y0 z_s) z_s)
      if norm3 y1 < 1e-10 then ((1 : ℝ), (0 : ℝ), (0 : ℝ)) else y1
    else div3 cross_product cross_norm
  let x_s0 := cross3 y_s z_s
  let x_s := div3 x_s0 (norm3 x_s0)
  (x_s, y_s, z_s)

/-- Source: the inner helper `xyz_to_alt_az` of `satellite_to_observer_frame`:
`azimuth = arctan2(y, x) % (2π)`, `altitude = arcsin(z / norm(v))`, both
returned in degrees as `(altitude, azimuth)`. -/
def xyz_to_alt_az (v : Vec3) : ℝ × ℝ :=
  let azimuth := modReal (atan2 v.2.1 v.1) (2 * Real.pi)
  let altitude := Real.arcsin (v.2.2 / norm3 v)
  (degrees altitude, degrees azimuth)

/-- Source: `satellite_to_observer_frame` in `altitude_azimuth_filter.py`.
Normalizes both inputs, builds the frame matrix `T` with columns
`(x_s, y_s, z_s)`, applies `T` (not its transpose) to the normalized sun
vector and to the negated normalized satellite vector, and converts both
results to altitude/azimuth.  Returns `(sun_alt, sun_az, sat_alt, sat_az)`. -/
def satellite_to_observer_frame (i_xyz o_xyz : Vec3) : ℝ × ℝ × ℝ × ℝ :=
  let i' := div3 i_xyz (norm3 i_xyz)
  let o' := div3 o_xyz (norm3 o_xyz)
  let b := observerFrameBasis i_xyz o_xyz
  let T := frameMatrix b.1 b.2.1 b.2.2
  let v_sun_observer := mulVec3 T i'
  let v_sat_observer := mulVec3 T (neg3 o')
  let sun := xyz_to_alt_az v_sun_observer
  let sat := xyz_to_alt_az v_sat_observer
  (sun.1, sun.2, sat.1, sat.2)

/-- Reading of claim C8 (and spec §4.1) that the local components are obtained
"by projecting each through T transposed": identical to
`satellite_to_observer_frame` except that `T.transpose` is applied in place of
`T`.  Defined only to be compared against the source function; the source
applies `T` itself. -/
def satellite_to_observer_frame_Tt (i_xyz o_xyz : Vec3) : ℝ × ℝ × ℝ × ℝ :=
  let i' := div3 i_xyz (norm3 i_xyz)
  let o' := div3 o_xyz (norm3 o_xyz)
  let b := observerFrameBasis i_xyz o_xyz
  let T := (frameMatrix b.1 b.2.1 b.2.2).transpose
  let v_sun_observer := mulVec3 T i'
  let v_sat_observer := mulVec3 T (neg3 o')
  let sun := xyz_to_alt_az v_sun_observer
  let sat := xyz_to_alt_az v_sat_observer
  (sun.1, sun.2, sat.1, sat.2)

/-! Helper lemmas about the float modulo. -/

theorem modReal_eq_fract (x : ℝ) {y : ℝ} (hy : y ≠ 0) :
    modReal x y = y * Int.fract (x / y) := by
  unfold modReal Int.fract
  rw [mul_sub]
  congr 1
  rw [mul_comm, div_mul_cancel₀ _ hy]

theorem modReal_nonneg (x : ℝ) {y : ℝ} (hy : 0 < y) : 0 ≤ modReal x y := by
  rw [modReal_eq_fract x hy.ne']
  exact mul_nonneg hy.le (Int.fract_nonneg _)

theorem modReal_lt (x : ℝ) {y : ℝ} (hy : 0 < y) : modReal x y < y := by
  rw [modReal_eq_fract x hy.ne']
  calc y * Int.fract (x / y) < y * 1 := mul_lt_mul_of_pos_left (Int.fract_lt_one _) hy
    _ = y := mul_one y

theorem modReal_eq_self {x y : ℝ} (hy : 0 < y) (h0 : 0 ≤ x) (h1 : x < y) :
    modReal x y = x := by
  unfold modReal
  rw [Int.floor_eq_zero_iff.mpr (Set.mem_Ico.mpr ⟨div_nonneg h0 hy.le, (div_lt_one hy).mpr h1⟩)]
  simp

theorem modReal_360_eval {x : ℝ} (h0 : 0 ≤ x) (h1 : x < 360) : modReal x 360 = x :=
  modReal_eq_self (by norm_num) h0 h1

/-! Characterizations of the two quadrant classifiers. -/

theorem EAC_quad1_iff (φ : ℝ) :
    EAC.get_quadrant φ = 1 ↔ 0 ≤ modReal φ 360 ∧ modReal φ 360 < 90 := by
  unfold EAC.get_quadrant
  dsimp only
  split_ifs with ha hb hc
  · simpa using ha
  · simpa using ha
  · simpa using ha
  · simpa using ha

theorem EAC_quad2_iff (φ : ℝ) :
    EAC.get_quadrant φ = 2 ↔ 90 ≤ modReal φ 360 ∧ modReal φ 360 < 180 := by
  have h0 := modReal_nonneg φ (by norm_num : (0:ℝ) < 360)
  unfold EAC.get_quadrant
  dsimp only
  split_ifs with ha hb hc
  · constructor
    · intro h; exact absurd h (by decide)
    · rintro ⟨h1, -⟩; exact absurd ha (by push_neg; intro _; linarith)
  · simpa using hb
  · constructor
    · intro h; exact absurd h (by decide)
    · rintro ⟨-, h2⟩; exact absurd hc (by push_neg; intro h; linarith)
  · constructor
    · intro h; exact absurd h (by decide)
    · intro h; exact absurd h hb

theorem EAC_quad3_iff (φ : ℝ) :
    EAC.get_quadrant φ = 3 ↔ 180 ≤ modReal φ 360 ∧ modReal φ 360 ≤ 270 := by
  unfold EAC.get_quadrant
  dsimp only
  split_ifs with ha hb hc
  · constructor
    · intro h; exact absurd h (by decide)
    · rintro ⟨h1, -⟩; exact absurd ha (by push_neg; intro _; linarith)
  · constructor
    · intro h; exact absurd h (by decide)
    · rintro ⟨h1, -⟩; exact absurd hb (by push_neg; intro _; linarith)
  · simpa using hc
  · constructor
    · intro h; exact absurd h (by decide)
    · intro h; exact absurd h hc

theorem EAC_quad4_iff (φ : ℝ) :
    EAC.get_quadrant φ = 4 ↔ 270 < modReal φ 360 ∧ modReal φ 360 < 360 := by
  have h0 := modReal_nonneg φ (by norm_num : (0:ℝ) < 360)
  have hlt := modReal_lt φ (by norm_num : (0:ℝ) < 360)
  unfold EAC.get_quadrant
  dsimp only
  split_ifs with ha hb hc
  · constructor
    · intro h; exact absurd h (by decide)
    · rintro ⟨h1, -⟩; linarith [ha.2]
  · constructor
    · intro h; exact absurd h (by decide)
    · rintro ⟨h1, -⟩; linarith [hb.2]
  · constructor
    · intro h; exact absurd h (by decide)
    · rintro ⟨h1, -⟩; linarith [hc.2]
  · constructor
    · intro _
      push_neg at ha hb hc
      exact ⟨hc (hb (ha h0)), hlt⟩
    · intro _; rfl

theorem EAC_quad_cases (φ : ℝ) :
    EAC.get_quadrant φ = 1 ∨ EAC.get_quadrant φ = 2 ∨
      EAC.get_quadrant φ = 3 ∨ EAC.get_quadrant φ = 4 := by
  unfold EAC.get_quadrant
  dsimp only
  split_ifs <;> simp

theorem ABm_quad1_iff (φ : ℝ) :
    ABm.get_quadrant φ = 1 ↔ 0 ≤ modReal φ 360 ∧ modReal φ 360 < 90 := by
  unfold ABm.get_quadrant
  dsimp only
  split_ifs with ha hb hc
  · simpa using ha
  · simpa using ha
  · simpa using ha
  · simpa using ha

theorem ABm_quad2_iff (φ : ℝ) :
    ABm.get_quadrant φ = 2 ↔ 90 ≤ modReal φ 360 ∧ modReal φ 360 < 180 := by
  have h0 := modReal_nonneg φ (by norm_num : (0:ℝ) < 360)
  unfold ABm.get_quadrant
  dsimp only
  split_ifs with ha hb hc
  · constructor
    · intro h; exact absurd h (by decide)
    · rintro ⟨h1, -⟩; exact absurd ha (by push_neg; intro _; linarith)
  · simpa using hb
  · constructor
    · intro h; exact absurd h (by decide)
    · rintro ⟨-, h2⟩; exact absurd hc (by push_neg; intro h; linarith)
  · constructor
    · intro h; exact absurd h (by decide)
    · intro h; exact absurd h hb

theorem ABm_quad3_iff (φ : ℝ) :
    ABm.get_quadrant φ = 3 ↔ 180 ≤ modReal φ 360 ∧ modReal φ 360 < 270 := by
  unfold ABm.get_quadrant
  dsimp only
  split_ifs with ha hb hc
  · constructor
    · intro h; exact absurd h (by decide)
    · rintro ⟨h1, -⟩; exact absurd ha (by push_neg; intro _; linarith)
  · constructor
    · intro h; exact absurd h (by decide)
    · rintro ⟨h1, -⟩; exact absurd hb (by push_neg; intro _; linarith)
  · simpa using hc
  · constructor
    · intro h; exact absurd h (by decide)
    · intro h; exact absurd h hc

theorem ABm_quad4_iff (φ : ℝ) :
    ABm.get_quadrant φ = 4 ↔ 270 ≤ modReal φ 360 ∧ modReal φ 360 < 360 := by
  have h0 := modReal_nonneg φ (by norm_num : (0:ℝ) < 360)
  have hlt := modReal_lt φ (by norm_num : (0:ℝ) < 360)
  unfold ABm.get_quadrant
  dsimp only
  split_ifs with ha hb hc
  · constructor
    · intro h; exact absurd h (by decide)
    · rintro ⟨h1, -⟩; linarith [ha.2]
  · constructor
    · intro h; exact absurd h (by decide)
    · rintro ⟨h1, -⟩; linarith [hb.2]
  · constructor
    · intro h; exact absurd h (by decide)
    · rintro ⟨h1, -⟩; linarith [hc.2]
  · constructor
    · intro _
      push_neg at ha hb hc
      exact ⟨hc (hb (ha h0)), hlt⟩
    · intro _; rfl

theorem ABm_quad_cases (φ : ℝ) :
    ABm.get_quadrant φ = 1 ∨ ABm.get_quadrant φ = 2 ∨
      ABm.get_quadrant φ = 3 ∨ ABm.get_quadrant φ = 4 := by
  unfold ABm.get_quadrant
  dsimp only
  split_ifs <;> simp

/-- Claim C2: for every real `phi_deg`, `get_quadrant` classifies
`phi = phi_deg mod 360` as Q1 iff `phi ∈ [0,90)`, Q2 iff `phi ∈ [90,180)`,
Q3 iff `phi ∈ [180,270]`, Q4 iff `phi ∈ (270,360)`; in particular
`phi = 270` is classified as Q3 by `Effective_Area_Calculation.py`, while the
classifier of `analysis/ABmag_SolarPhaseAngle_new.py` uses the half-open
interval `[180,270)` and puts `270` in Q4. -/
theorem claim_C2_quadrant_classifier :
    (∀ φ : ℝ,
      (EAC.get_quadrant φ = 1 ↔ 0 ≤ modReal φ 360 ∧ modReal φ 360 < 90) ∧
      (EAC.get_quadrant φ = 2 ↔ 90 ≤ modReal φ 360 ∧ modReal φ 360 < 180) ∧
      (EAC.get_quadrant φ = 3 ↔ 180 ≤ modReal φ 360 ∧ modReal φ 360 ≤ 270) ∧
      (EAC.get_quadrant φ = 4 ↔ 270 < modReal φ 360 ∧ modReal φ 360 < 360)) ∧
    EAC.get_quadrant 270 = 3 ∧ ABm.get_quadrant 270 = 4 := by
  have m270 : modReal 270 360 = 270 := modReal_360_eval (by norm_num) (by norm_num)
  refine ⟨fun φ => ⟨EAC_quad1_iff φ, EAC_quad2_iff φ, EAC_quad3_iff φ, EAC_quad4_iff φ⟩, ?_, ?_⟩
  · exact (EAC_quad3_iff 270).mpr (by rw [m270]; norm_num)
  · exact (ABm_quad4_iff 270).mpr (by rw [m270]; norm_num)

/-- Claim C1: `calculate_effective_area` agrees with the case table keyed by
the quadrant pair, with every quadrant pair not listed in the table mapping
to `(0, 0)`. -/
theorem claim_C1_case_table (c : ShadowCalculator) (phi_i theta_i phi_o theta_o : ℝ) :
    EAC.calculate_effective_area c phi_i theta_i phi_o theta_o =
      (if EAC.get_quadrant phi_i = 1 ∧ EAC.get_quadrant phi_o = 3 then ((0 : ℝ), (0 : ℝ))
       else if EAC.get_quadrant phi_i = 1 ∧ EAC.get_quadrant phi_o = 4 then
         (EAC.calculate_special_case c phi_i theta_i phi_o theta_o, 0)
       else if EAC.get_quadrant phi_i = 2 ∧ EAC.get_quadrant phi_o = 3 then (c.A_SA, 0)
       else if EAC.get_quadrant phi_i = 2 ∧ EAC.get_quadrant phi_o = 4 then (0, 0)
       else if EAC.get_quadrant phi_i = 3 ∧ EAC.get_quadrant phi_o = 3 then (c.A_SA, c.A_chassis)
       else if EAC.get_quadrant phi_i = 3 ∧ EAC.get_quadrant phi_o = 4 then (0, c.A_chassis)
       else if EAC.get_quadrant phi_i = 4 ∧ EAC.get_quadrant phi_o = 3 then (0, c.A_chassis)
       else if EAC.get_quadrant phi_i = 4 ∧ EAC.get_quadrant phi_o = 4 then
         (EAC.calculate_special_case c phi_i theta_i phi_o theta_o, c.A_chassis)
       else (0, 0)) := by
  rcases EAC_quad_cases phi_i with h1 | h1 | h1 | h1 <;>
    rcases EAC_quad_cases phi_o with h2 | h2 | h2 | h2 <;>
      simp [EAC.calculate_effective_area, h1, h2]

/-- Claim C10: outside the two special cases, `calculate_effective_area`
depends only on the quadrant pair: two inputs with equal quadrant pairs (not
`(Q1,Q4)` or `(Q4,Q4)`) produce identical outputs, regardless of the theta
arguments and of the exact phi values within their quadrants. -/
theorem claim_C10_quadrant_determines (c : ShadowCalculator)
    (phi_i theta_i phi_o theta_o phi_i' theta_i' phi_o' theta_o' : ℝ)
    (hqi : EAC.get_quadrant phi_i = EAC.get_quadrant phi_i')
    (hqo : EAC.get_quadrant phi_o = EAC.get_quadrant phi_o')
    (hns1 : ¬(EAC.get_quadrant phi_i = 1 ∧ EAC.get_quadrant phi_o = 4))
    (hns2 : ¬(EAC.get_quadrant phi_i = 4 ∧ EAC.get_quadrant phi_o = 4)) :
    EAC.calculate_effective_area c phi_i theta_i phi_o theta_o =
      EAC.calculate_effective_area c phi_i' theta_i' phi_o' theta_o' := by
  rcases EAC_quad_cases phi_i with h1 | h1 | h1 | h1 <;>
    rcases EAC_quad_cases phi_o with h2 | h2 | h2 | h2 <;>
      [skip; skip; skip; exact absurd ⟨h1, h2⟩ hns1; skip; skip; skip; skip;
       skip; skip; skip; skip; skip; skip; skip; exact absurd ⟨h1, h2⟩ hns2] <;>
      simp [EAC.calculate_effective_area, h1, h2, hqi ▸ h1, hqo ▸ h2]

/-- Witness for C10 at the concrete quadrant pair `(Q1, Q3)`. -/
theorem claim_C10_witness :
    EAC.get_quadrant 10 = EAC.get_quadrant 80 ∧
    EAC.get_quadrant 200 = EAC.get_quadrant 260 ∧
    ¬(EAC.get_quadrant 10 = 1 ∧ EAC.get_quadrant 200 = 4) ∧
    ¬(EAC.get_quadrant 10 = 4 ∧ EAC.get_quadrant 200 = 4) ∧
    EAC.calculate_effective_area defaultCalc 10 1 200 2 =
      EAC.calculate_effective_area defaultCalc 80 3 260 4 := by
  have q10 : EAC.get_quadrant 10 = 1 :=
    (EAC_quad1_iff 10).mpr (by rw [modReal_360_eval (by norm_num) (by norm_num)]; norm_num)
  have q80 : EAC.get_quadrant 80 = 1 :=
    (EAC_quad1_iff 80).mpr (by rw [modReal_360_eval (by norm_num) (by norm_num)]; norm_num)
  have q200 : EAC.get_quadrant 200 = 3 :=
    (EAC_quad3_iff 200).mpr (by rw [modReal_360_eval (by norm_num) (by norm_num)]; norm_num)
  have q260 : EAC.get_quadrant 260 = 3 :=
    (EAC_quad3_iff 260).mpr (by rw [modReal_360_eval (by norm_num) (by norm_num)]; norm_num)
  refine ⟨q10.trans q80.symm, q200.trans q260.symm, ?_, ?_, ?_⟩
  · rintro ⟨-, h⟩; rw [q200] at h; exact absurd h (by decide)
  · rintro ⟨h, -⟩; rw [q10] at h; exact absurd h (by decide)
  · exact claim_C10_quadrant_determines defaultCalc 10 1 200 2 80 3 260 4
      (q10.trans q80.symm) (q200.trans q260.symm)
      (by rintro ⟨-, h⟩; rw [q200] at h; exact absurd h (by decide))
      (by rintro ⟨h, -⟩; rw [q10] at h; exact absurd h (by decide))

/-- Claim C4: on the special quadrant pairs `(Q1,Q4)` and `(Q4,Q4)`,
`calculate_special_case` remaps `phi_i` to `0` (for Q1) or `phi_i - 270`
(for Q4) and `phi_o` to `phi_o - 270`, passes the theta angles through
unchanged, and returns the non-shadow area of `calculate_combined_non_shadow`
on the remapped angles. -/
theorem claim_C4_special_case_remap (c : ShadowCalculator)
    (phi_i theta_i phi_o theta_o : ℝ)
    (h : (EAC.get_quadrant phi_i = 1 ∧ EAC.get_quadrant phi_o = 4) ∨
         (EAC.get_quadrant phi_i = 4 ∧ EAC.get_quadrant phi_o = 4)) :
    EAC.calculate_special_case c phi_i theta_i phi_o theta_o =
      (EAC.calculate_combined_non_shadow c
        (if EAC.get_quadrant phi_i = 1 then 0 else phi_i - 270) theta_i
        (phi_o - 270) theta_o).1 := by
  rcases h with ⟨h1, -⟩ | ⟨h1, -⟩ <;> simp [EAC.calculate_special_case, h1]

/-- Witness for C4 at the concrete special pair `(Q1, Q4)`. -/
theorem claim_C4_witness :
    (EAC.get_quadrant 45 = 1 ∧ EAC.get_quadrant 280 = 4) ∧
    EAC.calculate_special_case defaultCalc 45 0 280 0 =
      (EAC.calculate_combined_non_shadow defaultCalc
        (if EAC.get_quadrant 45 = 1 then 0 else 45 - 270) 0 (280 - 270) 0).1 := by
  have q45 : EAC.get_quadrant 45 = 1 :=
    (EAC_quad1_iff 45).mpr (by rw [modReal_360_eval (by norm_num) (by norm_num)]; norm_num)
  have q280 : EAC.get_quadrant 280 = 4 :=
    (EAC_quad4_iff 280).mpr (by rw [modReal_360_eval (by norm_num) (by norm_num)]; norm_num)
  exact ⟨⟨q45, q280⟩,
    claim_C4_special_case_remap defaultCalc 45 0 280 0 (Or.inl ⟨q45, q280⟩)⟩

/-! Measurability and area of the modelled polygons. -/

theorem rectSet_measurable (a b : ℝ) : MeasurableSet (rectSet a b) :=
  measurableSet_Icc.prod measurableSet_Icc

theorem paraSet_measurable (d x y : ℝ) : MeasurableSet (paraSet d x y) := by
  have hc : IsCompact (Set.Icc (0 : ℝ) 1 ×ˢ Set.Icc (0 : ℝ) 1) :=
    isCompact_Icc.prod isCompact_Icc
  have hcont : Continuous (fun st : ℝ × ℝ => (st.1 * d - st.2 * x, st.2 * y)) := by
    continuity
  exact (hc.image hcont).isClosed.measurableSet

theorem EAC_shadow_measurable (c : ShadowCalculator) (φ θ : ℝ) :
    MeasurableSet (EAC.calculate_shadow c φ θ).1 := by
  unfold EAC.calculate_shadow
  dsimp only
  split_ifs
  · exact (rectSet_measurable _ _).inter (rectSet_measurable _ _)
  · exact (paraSet_measurable _ _ _).inter (rectSet_measurable _ _)

theorem ABm_shadow_measurable (c : ShadowCalculator) (φ θ : ℝ) :
    MeasurableSet (ABm.calculate_shadow c φ θ).1 := by
  unfold ABm.calculate_shadow
  dsimp only
  split_ifs
  · exact (rectSet_measurable _ _).inter (rectSet_measurable _ _)
  · exact (paraSet_measurable _ _ _).inter (rectSet_measurable _ _)

theorem volume_rectSet (a b : ℝ) :
    volume (rectSet a b) = ENNReal.ofReal a * ENNReal.ofReal b := by
  rw [rectSet, Measure.volume_eq_prod, Measure.prod_prod, Real.volume_Icc, Real.volume_Icc]
  simp

theorem area_rectSet {a b : ℝ} (ha : 0 ≤ a) (hb : 0 ≤ b) :
    area (rectSet a b) = a * b := by
  rw [area, volume_rectSet, ENNReal.toReal_mul, ENNReal.toReal_ofReal ha,
    ENNReal.toReal_ofReal hb]

theorem volume_rectSet_ne_top (a b : ℝ) : volume (rectSet a b) ≠ ⊤ := by
  rw [volume_rectSet]
  exact (ENNReal.mul_lt_top ENNReal.ofReal_lt_top ENNReal.ofReal_lt_top).ne

theorem area_diff_add_area_inter (a b : ℝ) {U : Set (ℝ × ℝ)}
    (hU : MeasurableSet U) :
    area (rectSet a b \ U) + area (U ∩ rectSet a b) = area (rectSet a b) := by
  have hfin := volume_rectSet_ne_top a b
  have h1 : volume (rectSet a b \ U) ≠ ⊤ :=
    (lt_of_le_of_lt (measure_mono Set.diff_subset) hfin.lt_top).ne
  have h2 : volume (U ∩ rectSet a b) ≠ ⊤ :=
    (lt_of_le_of_lt (measure_mono Set.inter_subset_right) hfin.lt_top).ne
  unfold area
  rw [← ENNReal.toReal_add h1 h2, Set.inter_comm U, measure_diff_add_inter _ hU]

/-- Claim C5: whenever `phi mod 180` is within `1e-9` of `90`, both
`calculate_shadow` variants use the rectangle `[0,D]×[0,L]` as the shadow
polygon, so after intersecting with the target rectangle `[0,D]×[0,H]` the
shadow region is `[0,D]×[0,min L H]` and the returned area is
`D * min L H`. -/
theorem claim_C5_vertical_case (c : ShadowCalculator) (φ θ : ℝ)
    (hL : 0 ≤ c.L) (hD : 0 ≤ c.D) (hH : 0 ≤ c.H)
    (h : |modReal φ 180 - 90| ≤ 1e-9) :
    (EAC.calculate_shadow c φ θ).1 = rectSet c.D (min c.L c.H) ∧
    (EAC.calculate_shadow c φ θ).2 = c.D * min c.L c.H ∧
    (ABm.calculate_shadow c φ θ).1 = rectSet c.D (min c.L c.H) ∧
    (ABm.calculate_shadow c φ θ).2 = c.D * min c.L c.H := by
  have hclose : isclose (modReal φ 180) 90 := le_trans h (le_max_right _ _)
  have hrect : rectSet c.D c.L ∩ rectSet c.D c.H = rectSet c.D (min c.L c.H) := by
    unfold rectSet
    rw [Set.prod_inter_prod, Set.inter_self, Set.Icc_inter_Icc, sup_idem]
  have harea : area (rectSet c.D (min c.L c.H)) = c.D * min c.L c.H :=
    area_rectSet hD (le_min hL hH)
  refine ⟨?_, ?_, ?_, ?_⟩
  · unfold EAC.calculate_shadow
    dsimp only
    rw [if_pos hclose, hrect]
  · unfold EAC.calculate_shadow
    dsimp only
    rw [if_pos hclose, hrect, harea]
  · unfold ABm.calculate_shadow
    dsimp only
    rw [if_pos hclose, hrect]
  · unfold ABm.calculate_shadow
    dsimp only
    rw [if_pos hclose, hrect, harea]

/-- Witness for C5 at `phi = 90` exactly. -/
theorem claim_C5_witness :
    |modReal 90 180 - 90| ≤ 1e-9 ∧
    (EAC.calculate_shadow defaultCalc 90 0).2 =
      defaultCalc.D * min defaultCalc.L defaultCalc.H := by
  have h : |modReal 90 180 - 90| ≤ 1e-9 := by
    rw [modReal_eq_self (by norm_num) (by norm_num) (by norm_num)]
    norm_num
  exact ⟨h, (claim_C5_vertical_case defaultCalc 90 0 (by norm_num [defaultCalc])
    (by norm_num [defaultCalc]) (by norm_num [defaultCalc]) h).2.1⟩

/-- Claim C7: for both engine variants, the non-shadow area returned by
`calculate_combined_non_shadow` plus the area of the intersection of the
union of the two shadow polygons with the target rectangle `[0,D]×[0,H]`
equals `D * H` (exactly, in the real-number model). -/
theorem claim_C7_non_shadow_invariant (c : ShadowCalculator)
    (phi_i theta_i phi_o theta_o : ℝ) (hD : 0 ≤ c.D) (hH : 0 ≤ c.H) :
    (EAC.calculate_combined_non_shadow c phi_i theta_i phi_o theta_o).1 +
      area (((EAC.calculate_shadow c phi_i theta_i).1 ∪
             (EAC.calculate_shadow c phi_o theta_o).1) ∩ rectSet c.D c.H) =
      c.D * c.H ∧
    (ABm.calculate_combined_non_shadow c phi_i theta_i phi_o theta_o).1 +
      area (((ABm.calculate_shadow c phi_i theta_i).1 ∪
             (ABm.calculate_shadow c phi_o theta_o).1) ∩ rectSet c.D c.H) =
      c.D * c.H := by
  constructor
  · have hU : MeasurableSet ((EAC.calculate_shadow c phi_i theta_i).1 ∪
        (EAC.calculate_shadow c phi_o theta_o).1) :=
      (EAC_shadow_measurable c phi_i theta_i).union (EAC_shadow_measurable c phi_o theta_o)
    unfold EAC.calculate_combined_non_shadow
    dsimp only
    rw [area_diff_add_area_inter c.D c.H hU, area_rectSet hD hH]
  · have hU : MeasurableSet ((ABm.calculate_shadow c phi_i theta_i).1 ∪
        (ABm.calculate_shadow c phi_o theta_o).1) :=
      (ABm_shadow_measurable c phi_i theta_i).union (ABm_shadow_measurable c phi_o theta_o)
    unfold ABm.calculate_combined_non_shadow
    dsimp only
    rw [area_diff_add_area_inter c.D c.H hU, area_rectSet hD hH]

/-- Witness for C7 at concrete angles and the default configuration. -/
theorem claim_C7_witness :
    (0 : ℝ) ≤ defaultCalc.D ∧ (0 : ℝ) ≤ defaultCalc.H ∧
    (EAC.calculate_combined_non_shadow defaultCalc 45 (-30) 200 30).1 +
      area (((EAC.calculate_shadow defaultCalc 45 (-30)).1 ∪
             (EAC.calculate_shadow defaultCalc 200 30).1) ∩
            rectSet defaultCalc.D defaultCalc.H) =
      defaultCalc.D * defaultCalc.H := by
  refine ⟨by norm_num [defaultCalc], by norm_num [defaultCalc], ?_⟩
  exact (claim_C7_non_shadow_invariant defaultCalc 45 (-30) 200 30
    (by norm_num [defaultCalc]) (by norm_num [defaultCalc])).1

/-! Helper lemmas about the `isclose` tolerance check. -/

theorem isclose_self (a : ℝ) : isclose a a := by
  unfold isclose
  rw [sub_self, abs_zero]
  exact le_trans (by norm_num) (le_max_right _ _)

theorem not_isclose_90_of_le {a : ℝ} (h0 : 0 ≤ a) (ha : a ≤ 89) : ¬ isclose a 90 := by
  intro hcl
  unfold isclose at hcl
  rw [abs_of_nonpos (by linarith : a - 90 ≤ 0), abs_of_nonneg h0,
    (by norm_num : |(90:ℝ)| = 90), max_eq_right (by linarith : a ≤ 90),
    max_eq_left (by norm_num : (1e-9:ℝ) ≤ 1e-9 * 90)] at hcl
  linarith

theorem not_isclose_90_of_ge {a : ℝ} (ha : 91 ≤ a) (hb : a ≤ 360) : ¬ isclose a 90 := by
  intro hcl
  unfold isclose at hcl
  rw [abs_of_nonneg (by linarith : (0:ℝ) ≤ a - 90), abs_of_nonneg (by linarith : (0:ℝ) ≤ a),
    (by norm_num : |(90:ℝ)| = 90), max_eq_left (by linarith : (90:ℝ) ≤ a)] at hcl
  have hbound : max (1e-9 * a) 1e-9 ≤ 3.6e-7 := max_le (by linarith) (by norm_num)
  linarith

theorem radians_degrees (r : ℝ) : radians (degrees r) = r := by
  unfold radians degrees
  field_simp

theorem radians_90 : radians 90 = Real.pi / 2 := by
  unfold radians
  ring

/-- The concrete angle used to exhibit the missing clamp in
`Effective_Area_Calculation.py`: `phi0 = degrees (arctan 1e-7)`, a value in
`(0°, 45°]` whose tangent is exactly `1e-7`. -/
def phi0 : ℝ := degrees (Real.arctan 1e-7)

theorem phi0_pos : 0 < phi0 := by
  unfold phi0 degrees
  have h1 : 0 < Real.arctan 1e-7 := by
    have h := Real.arctan_strictMono (show (0:ℝ) < 1e-7 by norm_num)
    rwa [Real.arctan_zero] at h
  have h2 : 0 < 180 / Real.pi := by positivity
  exact mul_pos h1 h2

theorem phi0_le_45 : phi0 ≤ 45 := by
  unfold phi0 degrees
  have h1 : Real.arctan 1e-7 ≤ Real.arctan 1 :=
    Real.arctan_strictMono.monotone (by norm_num)
  rw [Real.arctan_one] at h1
  have h2 : (0:ℝ) < 180 / Real.pi := by positivity
  calc Real.arctan 1e-7 * (180 / Real.pi) ≤ Real.pi / 4 * (180 / Real.pi) := by
        exact mul_le_mul_of_nonneg_right h1 h2.le
    _ = 45 := by
        field_simp
        ring

/-- Claim C6, counterexample: in `Effective_Area_Calculation.py` the general
(non-vertical) branch of `calculate_shadow` applies neither the tangent clamp
nor the `±1e6` offset clamp.  At `phi = degrees (arctan 1e-7)` and
`theta = 90` the code computes `cot_phi = 1e7` and uses
`x_offset = 1.3e7 > 1e6` directly as a parallelogram vertex offset. -/
theorem claim_C6_counterexample :
    EAC.cot_phi phi0 = 1e7 ∧
    EAC.x_offset defaultCalc phi0 90 = 1.3e7 ∧
    ¬ EAC.x_offset defaultCalc phi0 90 ≤ 1e6 ∧
    (EAC.calculate_shadow defaultCalc phi0 90).1 =
      paraSet defaultCalc.D (EAC.x_offset defaultCalc phi0 90)
        (EAC.y_offset defaultCalc phi0 90) ∩
        rectSet defaultCalc.D defaultCalc.H := by
  have hcot : EAC.cot_phi phi0 = 1e7 := by
    unfold EAC.cot_phi phi0
    rw [radians_degrees, Real.tan_arctan]
    norm_num
  have hx : EAC.x_offset defaultCalc phi0 90 = 1.3e7 := by
    unfold EAC.x_offset
    rw [hcot, radians_90, Real.sin_pi_div_two]
    norm_num [defaultCalc]
  have hmod : modReal phi0 180 = phi0 :=
    modReal_eq_self (by norm_num) phi0_pos.le (by linarith [phi0_le_45])
  have hgen : ¬ isclose (modReal phi0 180) 90 := by
    rw [hmod]
    exact not_isclose_90_of_le phi0_pos.le (by linarith [phi0_le_45])
  refine ⟨hcot, hx, by rw [hx]; norm_num, ?_⟩
  unfold EAC.calculate_shadow
  dsimp only
  rw [if_neg hgen]

/-- Claim C6, amended: the clamping behaviour holds for the
`analysis/ABmag_SolarPhaseAngle_new.py` variant of `calculate_shadow`: there
the cotangent denominator is `max 1e-10 (tan phi)`, which has magnitude at
least `1e-10` (so `cot_phi` is finite, in `(0, 1e10]`; note the one-sided
floor also replaces negative tangents by `1e-10`), and both offsets are
clamped into `[-1e6, 1e6]` before being used as parallelogram vertices. -/
theorem claim_C6_amended (c : ShadowCalculator) (φ θ : ℝ)
    (hgen : ¬ isclose (modReal φ 180) 90) :
    1e-10 ≤ ABm.tanClamped φ ∧
    ABm.cot_phi φ = 1 / ABm.tanClamped φ ∧
    0 < ABm.cot_phi φ ∧
    ABm.cot_phi φ ≤ 1e10 ∧
    -1e6 ≤ ABm.x_offset c φ θ ∧ ABm.x_offset c φ θ ≤ 1e6 ∧
    -1e6 ≤ ABm.y_offset c φ θ ∧ ABm.y_offset c φ θ ≤ 1e6 ∧
    (ABm.calculate_shadow c φ θ).1 =
      paraSet c.D (ABm.x_offset c φ θ) (ABm.y_offset c φ θ) ∩ rectSet c.D c.H := by
  have ht : (1e-10 : ℝ) ≤ ABm.tanClamped φ := le_max_left _ _
  have htpos : (0:ℝ) < ABm.tanClamped φ := lt_of_lt_of_le (by norm_num) ht
  refine ⟨ht, rfl, one_div_pos.mpr htpos, ?_, le_max_left _ _,
    max_le (by norm_num) (min_le_left _ _), le_max_left _ _,
    max_le (by norm_num) (min_le_left _ _), ?_⟩
  · calc ABm.cot_phi φ = 1 / ABm.tanClamped φ := rfl
      _ ≤ 1 / 1e-10 := one_div_le_one_div_of_le (by norm_num) ht
      _ = 1e10 := by norm_num
  · unfold ABm.calculate_shadow
    dsimp only
    rw [if_neg hgen]

/-- Witness for the amended C6 in the general branch, at `phi = 0`. -/
theorem claim_C6_amended_witness :
    ¬ isclose (modReal 0 180) 90 ∧
    (ABm.calculate_shadow defaultCalc 0 0).1 =
      paraSet defaultCalc.D (ABm.x_offset defaultCalc 0 0)
        (ABm.y_offset defaultCalc 0 0) ∩
        rectSet defaultCalc.D defaultCalc.H := by
  have hm : modReal 0 180 = 0 := modReal_eq_self (by norm_num) le_rfl (by norm_num)
  have hgen : ¬ isclose (modReal 0 180) 90 := by
    rw [hm]
    exact not_isclose_90_of_le le_rfl (by norm_num)
  exact ⟨hgen, (claim_C6_amended defaultCalc 0 0 hgen).2.2.2.2.2.2.2.2⟩

/-! Facts about `degrees` needed to evaluate the coordinate transform. -/

theorem degrees_zero : degrees 0 = 0 := by
  unfold degrees
  ring

theorem degrees_pi_div_two : degrees (Real.pi / 2) = 90 := by
  unfold degrees
  field_simp
  ring

theorem degrees_neg_pi_div_two : degrees (-(Real.pi / 2)) = -90 := by
  unfold degrees
  field_simp
  ring

theorem degrees_arcsin_le (s : ℝ) :
    -90 ≤ degrees (Real.arcsin s) ∧ degrees (Real.arcsin s) ≤ 90 := by
  obtain ⟨h1, h2⟩ := Real.arcsin_mem_Icc s
  have hp : (0:ℝ) ≤ 180 / Real.pi := by positivity
  constructor
  · have h := mul_le_mul_of_nonneg_right h1 hp
    calc (-90 : ℝ) = -(Real.pi / 2) * (180 / Real.pi) := by field_simp; ring
      _ ≤ Real.arcsin s * (180 / Real.pi) := h
  · have h := mul_le_mul_of_nonneg_right h2 hp
    calc degrees (Real.arcsin s) = Real.arcsin s * (180 / Real.pi) := rfl
      _ ≤ Real.pi / 2 * (180 / Real.pi) := h
      _ = 90 := by field_simp; ring

/-- Claim C9: `cartesian_to_spherical` always returns a numeric angle pair:
the zero-length vector takes the sentinel `(0, 0)`; for non-zero vectors the
argument handed to `asin` is always within its domain `[-1, 1]` (so the code
cannot raise a domain error), and the returned pair always satisfies
`phi ∈ [0, 360)` and `theta ∈ [-90, 90]`. -/
theorem claim_C9_total_numeric :
    ABm.cartesian_to_spherical 0 0 0 = (0, 0) ∧
    (∀ x y z : ℝ, Real.sqrt (x ^ 2 + y ^ 2 + z ^ 2) = 0 →
      ABm.cartesian_to_spherical x y z = (0, 0)) ∧
    (∀ x y z : ℝ, Real.sqrt (x ^ 2 + y ^ 2 + z ^ 2) ≠ 0 →
      |z / Real.sqrt (x ^ 2 + y ^ 2 + z ^ 2)| ≤ 1) ∧
    (∀ x y z : ℝ,
      0 ≤ (ABm.cartesian_to_spherical x y z).1 ∧
      (ABm.cartesian_to_spherical x y z).1 < 360 ∧
      -90 ≤ (ABm.cartesian_to_spherical x y z).2 ∧
      (ABm.cartesian_to_spherical x y z).2 ≤ 90) := by
  have hzero : ∀ x y z : ℝ, Real.sqrt (x ^ 2 + y ^ 2 + z ^ 2) = 0 →
      ABm.cartesian_to_spherical x y z = (0, 0) := by
    intro x y z h
    unfold ABm.cartesian_to_spherical
    dsimp only
    rw [if_pos h]
  refine ⟨hzero 0 0 0 (by norm_num), hzero, ?_, ?_⟩
  · intro x y z h
    have hn : 0 < Real.sqrt (x ^ 2 + y ^ 2 + z ^ 2) :=
      lt_of_le_of_ne (Real.sqrt_nonneg _) (Ne.symm h)
    have hz : |z| ≤ Real.sqrt (x ^ 2 + y ^ 2 + z ^ 2) := by
      rw [← Real.sqrt_sq_eq_abs]
      exact Real.sqrt_le_sqrt (by nlinarith [sq_nonneg x, sq_nonneg y])
    rw [abs_div, abs_of_pos hn]
    exact div_le_one_of_le₀ hz (Real.sqrt_nonneg _)
  · intro x y z
    unfold ABm.cartesian_to_spherical
    dsimp only
    split_ifs with h1 h2 h3
    · norm_num
    · refine ⟨modReal_nonneg _ (by norm_num), modReal_lt _ (by norm_num), by norm_num, by norm_num⟩
    · refine ⟨modReal_nonneg _ (by norm_num), modReal_lt _ (by norm_num), ?_, ?_⟩
      · exact (degrees_arcsin_le _).1
      · exact (degrees_arcsin_le _).2
    · refine ⟨modReal_nonneg _ (by norm_num), modReal_lt _ (by norm_num), by norm_num, by norm_num⟩
    · refine ⟨modReal_nonneg _ (by norm_num), modReal_lt _ (by norm_num), ?_, ?_⟩
      · exact (degrees_arcsin_le _).1
      · exact (degrees_arcsin_le _).2

/-- Witness for C9: the sentinel at the zero vector, and the in-domain `asin`
argument at the concrete non-zero vector `(0, 0, 1)`. -/
theorem claim_C9_witness :
    ABm.cartesian_to_spherical 0 0 0 = (0, 0) ∧
    |(1 : ℝ) / Real.sqrt ((0:ℝ) ^ 2 + (0:ℝ) ^ 2 + (1:ℝ) ^ 2)| ≤ 1 := by
  refine ⟨claim_C9_total_numeric.1, ?_⟩
  exact claim_C9_total_numeric.2.2.1 0 0 1
    (by rw [show ((0:ℝ) ^ 2 + (0:ℝ) ^ 2 + (1:ℝ) ^ 2) = 1 by norm_num, Real.sqrt_one]; norm_num)

/-! Concrete evaluations of `cartesian_to_spherical`, used to compare the two
engine variants. -/

theorem czs_001 : ABm.cartesian_to_spherical 0 0 1 = (90, 0) := by
  have hm : modReal 90 360 = 90 := modReal_360_eval (by norm_num) (by norm_num)
  have hcl : isclose (90:ℝ) 90 := isclose_self 90
  simp only [ABm.cartesian_to_spherical]
  norm_num [Real.arcsin_one, degrees_pi_div_two, hcl, hm]

theorem czs_00m1 : ABm.cartesian_to_spherical 0 0 (-1) = (270, 0) := by
  have hm : modReal 270 360 = 270 := modReal_360_eval (by norm_num) (by norm_num)
  have hncl : ¬ isclose (270:ℝ) 90 := not_isclose_90_of_ge (by norm_num) (by norm_num)
  simp only [ABm.cartesian_to_spherical]
  norm_num [Real.arcsin_neg_one, degrees_neg_pi_div_two, hncl, hm,
    Real.arcsin_zero, degrees_zero]

theorem czs_100 : ABm.cartesian_to_spherical 1 0 0 = (0, 0) := by
  have hm : modReal 0 360 = 0 := modReal_360_eval le_rfl (by norm_num)
  have hncl : ¬ isclose (0:ℝ) 90 := not_isclose_90_of_le le_rfl (by norm_num)
  simp only [ABm.cartesian_to_spherical]
  norm_num [Real.arcsin_zero, degrees_zero, hm, hncl]

theorem czs_m100 : ABm.cartesian_to_spherical (-1) 0 0 = (180, 0) := by
  have hm : modReal 180 360 = 180 := modReal_360_eval (by norm_num) (by norm_num)
  have hncl : ¬ isclose (180:ℝ) 90 := not_isclose_90_of_ge (by norm_num) (by norm_num)
  simp only [ABm.cartesian_to_spherical]
  norm_num [Real.arcsin_zero, degrees_zero, hm, hncl]

/-! Concrete quadrant evaluations used to compare the two engine variants. -/

theorem EAC_quad_0 : EAC.get_quadrant 0 = 1 :=
  (EAC_quad1_iff 0).mpr (by rw [modReal_360_eval le_rfl (by norm_num)]; norm_num)

theorem ABm_quad_0 : ABm.get_quadrant 0 = 1 :=
  (ABm_quad1_iff 0).mpr (by rw [modReal_360_eval le_rfl (by norm_num)]; norm_num)

theorem EAC_quad_90 : EAC.get_quadrant 90 = 2 :=
  (EAC_quad2_iff 90).mpr (by rw [modReal_360_eval (by norm_num) (by norm_num)]; norm_num)

theorem ABm_quad_90 : ABm.get_quadrant 90 = 2 :=
  (ABm_quad2_iff 90).mpr (by rw [modReal_360_eval (by norm_num) (by norm_num)]; norm_num)

theorem EAC_quad_180 : EAC.get_quadrant 180 = 3 :=
  (EAC_quad3_iff 180).mpr (by rw [modReal_360_eval (by norm_num) (by norm_num)]; norm_num)

theorem ABm_quad_180 : ABm.get_quadrant 180 = 3 :=
  (ABm_quad3_iff 180).mpr (by rw [modReal_360_eval (by norm_num) (by norm_num)]; norm_num)

theorem EAC_quad_270 : EAC.get_quadrant 270 = 3 :=
  (EAC_quad3_iff 270).mpr (by rw [modReal_360_eval (by norm_num) (by norm_num)]; norm_num)

theorem ABm_quad_270 : ABm.get_quadrant 270 = 4 :=
  (ABm_quad4_iff 270).mpr (by rw [modReal_360_eval (by norm_num) (by norm_num)]; norm_num)

/-- Claim C3, counterexample: the two engine variants do NOT yield identical
results for equivalent inputs.  For the unit vectors `(0,0,1)` and
`(0,0,-1)`, `cartesian_to_spherical` produces the angle pairs `(90,0)` and
`(270,0)`; the Cartesian variant classifies `270` into Q4 (half-open Q3) and
returns `(0,0)`, while the angle variant of `Effective_Area_Calculation.py`
classifies `270` into Q3 (closed) and returns `(A_SA, 0)` with
`A_SA = 22.68 ≠ 0`. -/
theorem claim_C3_counterexample :
    ABm.cartesian_to_spherical 0 0 1 = (90, 0) ∧
    ABm.cartesian_to_spherical 0 0 (-1) = (270, 0) ∧
    ABm.calculate_effective_area defaultCalc 0 0 1 0 0 (-1) = (0, 0) ∧
    EAC.calculate_effective_area defaultCalc 90 0 270 0 = (defaultCalc.A_SA, 0) ∧
    defaultCalc.A_SA ≠ 0 := by
  refine ⟨czs_001, czs_00m1, ?_, ?_, ?_⟩
  · simp [ABm.calculate_effective_area, czs_001, czs_00m1, ABm_quad_90, ABm_quad_270]
  · simp [EAC.calculate_effective_area, EAC_quad_90, EAC_quad_270]
  · simp only [defaultCalc, ShadowCalculator.A_SA]
    norm_num

/-- Claim C3, amended: the Cartesian-input variant agrees with the
angle-input variant of `Effective_Area_Calculation.py` on the converted
angles whenever the two quadrant classifiers agree on both converted `phi`
values (they differ only at exactly `270`) and the common quadrant pair is
not one of the special pairs `(Q1,Q4)`, `(Q4,Q4)` (where the two files'
`calculate_shadow` guards differ). -/
theorem claim_C3_amended (c : ShadowCalculator) (xi yi zi xo yo zo : ℝ)
    (hqi : EAC.get_quadrant (ABm.cartesian_to_spherical xi yi zi).1 =
           ABm.get_quadrant (ABm.cartesian_to_spherical xi yi zi).1)
    (hqo : EAC.get_quadrant (ABm.cartesian_to_spherical xo yo zo).1 =
           ABm.get_quadrant (ABm.cartesian_to_spherical xo yo zo).1)
    (hns1 : ¬(ABm.get_quadrant (ABm.cartesian_to_spherical xi yi zi).1 = 1 ∧
              ABm.get_quadrant (ABm.cartesian_to_spherical xo yo zo).1 = 4))
    (hns2 : ¬(ABm.get_quadrant (ABm.cartesian_to_spherical xi yi zi).1 = 4 ∧
              ABm.get_quadrant (ABm.cartesian_to_spherical xo yo zo).1 = 4)) :
    ABm.calculate_effective_area c xi yi zi xo yo zo =
      EAC.calculate_effective_area c
        (ABm.cartesian_to_spherical xi yi zi).1 (ABm.cartesian_to_spherical xi yi zi).2
        (ABm.cartesian_to_spherical xo yo zo).1 (ABm.cartesian_to_spherical xo yo zo).2 := by
  rcases ABm_quad_cases (ABm.cartesian_to_spherical xi yi zi).1 with h1 | h1 | h1 | h1 <;>
    rcases ABm_quad_cases (ABm.cartesian_to_spherical xo yo zo).1 with h2 | h2 | h2 | h2 <;>
      [skip; skip; skip; exact absurd ⟨h1, h2⟩ hns1; skip; skip; skip; skip;
       skip; skip; skip; skip; skip; skip; skip; exact absurd ⟨h1, h2⟩ hns2] <;>
      simp [ABm.calculate_effective_area, EAC.calculate_effective_area, h1, h2,
        hqi.trans h1, hqo.trans h2]

/-- Witness for the amended C3 at the vectors `(1,0,0)` and `(-1,0,0)`
(converted quadrant pair `(Q1, Q3)` under both classifiers). -/
theorem claim_C3_amended_witness :
    EAC.get_quadrant (ABm.cartesian_to_spherical 1 0 0).1 =
      ABm.get_quadrant (ABm.cartesian_to_spherical 1 0 0).1 ∧
    EAC.get_quadrant (ABm.cartesian_to_spherical (-1) 0 0).1 =
      ABm.get_quadrant (ABm.cartesian_to_spherical (-1) 0 0).1 ∧
    ABm.calculate_effective_area defaultCalc 1 0 0 (-1) 0 0 =
      EAC.calculate_effective_area defaultCalc
        (ABm.cartesian_to_spherical 1 0 0).1 (ABm.cartesian_to_spherical 1 0 0).2
        (ABm.cartesian_to_spherical (-1) 0 0).1 (ABm.cartesian_to_spherical (-1) 0 0).2 := by
  have hi1 : (ABm.cartesian_to_spherical 1 0 0).1 = 0 := by rw [czs_100]
  have ho1 : (ABm.cartesian_to_spherical (-1) 0 0).1 = 180 := by rw [czs_m100]
  have hqi : EAC.get_quadrant (ABm.cartesian_to_spherical 1 0 0).1 =
      ABm.get_quadrant (ABm.cartesian_to_spherical 1 0 0).1 := by
    rw [hi1, EAC_quad_0, ABm_quad_0]
  have hqo : EAC.get_quadrant (ABm.cartesian_to_spherical (-1) 0 0).1 =
      ABm.get_quadrant (ABm.cartesian_to_spherical (-1) 0 0).1 := by
    rw [ho1, EAC_quad_180, ABm_quad_180]
  have hns1 : ¬(ABm.get_quadrant (ABm.cartesian_to_spherical 1 0 0).1 = 1 ∧
      ABm.get_quadrant (ABm.cartesian_to_spherical (-1) 0 0).1 = 4) := by
    rintro ⟨-, h⟩
    rw [ho1, ABm_quad_180] at h
    exact absurd h (by decide)
  have hns2 : ¬(ABm.get_quadrant (ABm.cartesian_to_spherical 1 0 0).1 = 4 ∧
      ABm.get_quadrant (ABm.cartesian_to_spherical (-1) 0 0).1 = 4) := by
    rintro ⟨h, -⟩
    rw [hi1, ABm_quad_0] at h
    exact absurd h (by decide)
  exact ⟨hqi, hqo, claim_C3_amended defaultCalc 1 0 0 (-1) 0 0 hqi hqo hns1 hns2⟩

/-! Concrete evaluations for the observer-frame transform. -/

theorem div3_one (v : Vec3) : div3 v 1 = v := by
  simp [div3]

theorem modReal_zero (y : ℝ) : modReal 0 y = 0 := by
  unfold modReal
  simp

theorem norm3_010 : norm3 (0, 1, 0) = 1 := by
  norm_num [norm3, dot3]

theorem norm3_100 : norm3 (1, 0, 0) = 1 := by
  norm_num [norm3, dot3]

theorem basis_eval :
    observerFrameBasis (0, 1, 0) (1, 0, 0) = ((0, 1, 0), (0, 0, -1), (-1, 0, 0)) := by
  simp only [observerFrameBasis]
  norm_num [div3, neg3, cross3, dot3, norm3, smul3, sub3]

theorem mulVecT_sun :
    mulVec3 (frameMatrix (0, 1, 0) (0, 0, -1) (-1, 0, 0)) (0, 1, 0) = (0, 0, -1) := by
  norm_num [mulVec3, frameMatrix, Matrix.mulVec, Matrix.dotProduct, Fin.sum_univ_three,
    Matrix.transpose_apply, Matrix.cons_val_zero, Matrix.cons_val_one, Matrix.head_cons,
    Matrix.cons_val_two, Matrix.tail_cons, Matrix.vecHead, Matrix.vecTail]

theorem mulVecTt_sun :
    mulVec3 ((frameMatrix (0, 1, 0) (0, 0, -1) (-1, 0, 0)).transpose) (0, 1, 0) = (1, 0, 0) := by
  norm_num [mulVec3, frameMatrix, Matrix.mulVec, Matrix.dotProduct, Fin.sum_univ_three,
    Matrix.transpose_apply, Matrix.transpose_transpose,
    Matrix.cons_val_zero, Matrix.cons_val_one, Matrix.head_cons,
    Matrix.cons_val_two, Matrix.tail_cons, Matrix.vecHead, Matrix.vecTail]

theorem atan2_zero_zero : atan2 0 0 = 0 := by
  unfold atan2
  have h00 : (⟨0, 0⟩ : ℂ) = 0 := by
    apply Complex.ext <;> simp
  rw [h00, Complex.arg_zero]

theorem atan2_zero_one : atan2 0 1 = 0 := by
  unfold atan2
  have h10 : (⟨1, 0⟩ : ℂ) = 1 := by
    apply Complex.ext <;> simp
  rw [h10, Complex.arg_one]

theorem altAz_down : xyz_to_alt_az (0, 0, -1) = (-90, 0) := by
  unfold xyz_to_alt_az
  rw [atan2_zero_zero, modReal_zero]
  norm_num [norm3, dot3, Real.arcsin_neg_one, degrees_neg_pi_div_two, degrees_zero]

theorem altAz_east : xyz_to_alt_az (1, 0, 0) = (0, 0) := by
  unfold xyz_to_alt_az
  rw [atan2_zero_one, modReal_zero]
  norm_num [norm3, dot3, Real.arcsin_zero, degrees_zero]

/-- Claim C8, counterexample: the claim (and spec §4.1) say the local-frame
components are obtained by projecting through the TRANSPOSE of `T`; the code
applies `T` itself (`T @ v`), which differs whenever `T` is not symmetric.
At `sun_dir = (0,1,0)`, `sat_dir = (1,0,0)` the code returns sun altitude
`-90°`, while the transpose reading would return `0°`. -/
theorem claim_C8_counterexample :
    (satellite_to_observer_frame (0, 1, 0) (1, 0, 0)).1 = -90 ∧
    (satellite_to_observer_frame_Tt (0, 1, 0) (1, 0, 0)).1 = 0 ∧
    (-90 : ℝ) ≠ 0 := by
  refine ⟨?_, ?_, by norm_num⟩
  · simp only [satellite_to_observer_frame, basis_eval, norm3_010, div3_one]
    rw [mulVecT_sun, altAz_down]
  · simp only [satellite_to_observer_frame_Tt, basis_eval, norm3_010, div3_one]
    rw [mulVecTt_sun, altAz_east]

/-- Claim C8, amended: `satellite_to_observer_frame` builds `T` with columns
`(x_s, y_s, z_s)` where `z_s` is the negated normalized satellite vector, and
projects the normalized sun vector and the negated normalized satellite
vector through `T` ITSELF (`T @ v`, the linear combination
`v₁·x_s + v₂·y_s + v₃·z_s` of the columns) — not through `T` transposed —
then returns altitude `asin(z/‖v‖)` and azimuth `atan2(y,x) mod 2π`, both in
degrees, for each of the two projected vectors. -/
theorem claim_C8_amended (i_xyz o_xyz : Vec3) :
    (observerFrameBasis i_xyz o_xyz).2.2 = neg3 (div3 o_xyz (norm3 o_xyz)) ∧
    (∀ v xs ys zs : Vec3,
      mulVec3 (frameMatrix xs ys zs) v =
        add3 (add3 (smul3 v.1 xs) (smul3 v.2.1 ys)) (smul3 v.2.2 zs)) ∧
    satellite_to_observer_frame i_xyz o_xyz =
      ((xyz_to_alt_az (mulVec3
          (frameMatrix (observerFrameBasis i_xyz o_xyz).1
            (observerFrameBasis i_xyz o_xyz).2.1 (observerFrameBasis i_xyz o_xyz).2.2)
          (div3 i_xyz (norm3 i_xyz)))).1,
       (xyz_to_alt_az (mulVec3
          (frameMatrix (observerFrameBasis i_xyz o_xyz).1
            (observerFrameBasis i_xyz o_xyz).2.1 (observerFrameBasis i_xyz o_xyz).2.2)
          (div3 i_xyz (norm3 i_xyz)))).2,
       (xyz_to_alt_az (mulVec3
          (frameMatrix (observerFrameBasis i_xyz o_xyz).1
            (observerFrameBasis i_xyz o_xyz).2.1 (observerFrameBasis i_xyz o_xyz).2.2)
          (neg3 (div3 o_xyz (norm3 o_xyz))))).1,
       (xyz_to_alt_az (mulVec3
          (frameMatrix (observerFrameBasis i_xyz o_xyz).1
            (observerFrameBasis i_xyz o_xyz).2.1 (observerFrameBasis i_xyz o_xyz).2.2)
          (neg3 (div3 o_xyz (norm3 o_xyz))))).2) ∧
    (∀ v : Vec3, xyz_to_alt_az v =
      (degrees (Real.arcsin (v.2.2 / norm3 v)),
       degrees (modReal (atan2 v.2.1 v.1) (2 * Real.pi)))) := by
  refine ⟨rfl, ?_, rfl, fun v => rfl⟩
  intro v xs ys zs
  simp only [mulVec3, frameMatrix, Matrix.mulVec, Matrix.dotProduct, Fin.sum_univ_three,
    Matrix.transpose_apply, Matrix.of_apply, Matrix.cons_val_zero, Matrix.cons_val_one,
    Matrix.head_cons, Matrix.cons_val_two, Matrix.tail_cons, add3, smul3]
  refine Prod.ext ?_ (Prod.ext ?_ ?_) <;> dsimp only <;> ring

end
